import Mathlib

/-!
Shallow embedding of `meminfo.c` (earlyoom): the `/proc/meminfo` parser
(`get_entry`, `get_entry_fatal`, `available_guesstimate`, `parse_meminfo`)
and the process-liveness query `is_alive`.

Modelling conventions:
* a text blob is a `List Char`;
* C `long` values are `Int`; `strtol` clamps to the `long` range and reports
  `ERANGE` through a `Bool` flag (glibc behaviour: no `errno` on
  no-conversion, which then yields the value 0);
* C integer division truncates toward zero, so it is `Int.tdiv`;
* `fatal(code, ...)` (process termination) and the undefined behaviour of a
  division by zero are modelled by the error side of `Except CErr`;
* the `static` variables of `parse_meminfo` (the open file handle and the
  `guesstimate_warned` flag) become explicit inputs/outputs: the caller passes
  whether the file could be opened, the bytes read, and the current flag.
-/

/-- C `isspace` in the POSIX locale. -/
def isSpace (c : Char) : Bool :=
  c = ' ' || c = '\t' || c = '\n' || c = '\x0b' || c = '\x0c' || c = '\r'

/-- Accumulate a leading run of decimal digits, most significant first. -/
def parseDigitsAux : List Char → Nat → Nat
  | [], acc => acc
  | c :: rest, acc =>
      if c.isDigit then parseDigitsAux rest (acc * 10 + (c.toNat - 48)) else acc

def LONG_MAX : Int := 9223372036854775807

def LONG_MIN : Int := -9223372036854775808

/-- Split an optional leading sign: returns (isNegative, rest). -/
def splitSign (s : List Char) : Bool × List Char :=
  match s with
  | [] => (false, [])
  | c :: r =>
      if c = '-' then (true, r)
      else if c = '+' then (false, r)
      else (false, c :: r)

/-- glibc `strtol(s, NULL, 10)`: skip whitespace, optional sign, longest digit
run; returns (value, erangeFlag). No conversion yields (0, false); overflow
clamps to the `long` range and sets the flag (`errno = ERANGE`). -/
def strtol10 (s : List Char) : Int × Bool :=
  let s1 := s.dropWhile isSpace
  let p := splitSign s1
  match p.2 with
  | [] => (0, false)
  | c :: r =>
      if c.isDigit then
        let mag : Nat := parseDigitsAux (c :: r) 0
        let v : Int := if p.1 then -(mag : Int) else (mag : Int)
        if v > LONG_MAX then (LONG_MAX, true)
        else if v < LONG_MIN then (LONG_MIN, true)
        else (v, false)
      else (0, false)

/-- C `strstr(buf, name)`: the suffix of `buf` starting at the first
occurrence of `name` as a substring, or `none`. -/
def strstrSuffix (name : List Char) : List Char → Option (List Char)
  | [] => if name = [] then some [] else none
  | c :: rest =>
      if name.isPrefixOf (c :: rest) then some (c :: rest)
      else strstrSuffix name rest

/-- `static long get_entry(const char* name, const char* buf)`:
`-1` when `strstr` misses or `strtol` set `errno`, else the parsed value. -/
def get_entry (name buf : List Char) : Int :=
  match strstrSuffix name buf with
  | none => -1
  | some hit =>
      let r := strtol10 (hit.drop name.length)
      if r.2 then -1 else r.1

/-- Error side of the embedding: `fatal(code, ...)` process termination, or
the undefined behaviour of a C division by zero. -/
inductive CErr where
  | fatalExit : Nat → CErr
  | divByZero : CErr
deriving DecidableEq

instance {ε α : Type} [DecidableEq ε] [DecidableEq α] : DecidableEq (Except ε α) :=
  fun x y =>
    match x, y with
    | .ok a, .ok b =>
        if h : a = b then .isTrue (by rw [h])
        else .isFalse (by intro hh; cases hh; exact h rfl)
    | .error a, .error b =>
        if h : a = b then .isTrue (by rw [h])
        else .isFalse (by intro hh; cases hh; exact h rfl)
    | .ok _, .error _ => .isFalse (by intro hh; cases hh)
    | .error _, .ok _ => .isFalse (by intro hh; cases hh)

/-- `static long get_entry_fatal(const char* name, const char* buf)`:
like `get_entry`, but `fatal(104, ...)` when the value is `-1`. -/
def get_entry_fatal (name buf : List Char) : Except CErr Int :=
  let val := get_entry name buf
  if val = -1 then .error (.fatalExit 104) else .ok val

def lblMemTotal : List Char := "MemTotal:".toList

def lblSwapTotal : List Char := "SwapTotal:".toList

def lblSwapFree : List Char := "SwapFree:".toList

def lblMemAvailable : List Char := "MemAvailable:".toList

def lblCached : List Char := "Cached:".toList

def lblMemFree : List Char := "MemFree:".toList

def lblBuffers : List Char := "Buffers:".toList

def lblShmem : List Char := "Shmem:".toList

/-- `static long available_guesstimate(const char* buf)`:
`MemFree + Cached + Buffers - Shmem`, each field extracted fatally, in the
source's order (Cached, MemFree, Buffers, Shmem). -/
def available_guesstimate (buf : List Char) : Except CErr Int :=
  match get_entry_fatal lblCached buf with
  | .error e => .error e
  | .ok Cached =>
  match get_entry_fatal lblMemFree buf with
  | .error e => .error e
  | .ok MemFree =>
  match get_entry_fatal lblBuffers buf with
  | .error e => .error e
  | .ok Buffers =>
  match get_entry_fatal lblShmem buf with
  | .error e => .error e
  | .ok Shmem => .ok (MemFree + Cached + Buffers - Shmem)

/-- The `meminfo_t` struct: exactly the fields `meminfo.c` assigns. -/
structure meminfo_t where
  MemTotalKiB : Int
  MemTotalMiB : Int
  MemAvailableMiB : Int
  MemAvailablePercent : Int
  SwapTotalKiB : Int
  SwapTotalMiB : Int
  SwapFreeMiB : Int
  SwapFreePercent : Int
deriving DecidableEq

/-- Result of one `parse_meminfo` call: the snapshot, the updated
`guesstimate_warned` flag, and whether this call printed the warning. -/
structure ParseResult where
  m : meminfo_t
  warnedAfter : Bool
  emitted : Bool
deriving DecidableEq

/-- The `MemAvailable` value `parse_meminfo` ends up using: the parsed field
when `get_entry` does not return `-1`, otherwise the guesstimate. -/
def memAvailableSelected (buf : List Char) : Except CErr Int :=
  if get_entry lblMemAvailable buf = -1 then available_guesstimate buf
  else .ok (get_entry lblMemAvailable buf)

/-- Body of `parse_meminfo` after the read: field extraction, fallback,
percentage and MiB computation. `warned` is `guesstimate_warned` on entry. -/
def parse_meminfo_core (warned : Bool) (buf : List Char) : Except CErr ParseResult :=
  match get_entry_fatal lblMemTotal buf with
  | .error e => .error e
  | .ok memTotalKiB =>
  match get_entry_fatal lblSwapTotal buf with
  | .error e => .error e
  | .ok swapTotalKiB =>
  match get_entry_fatal lblSwapFree buf with
  | .error e => .error e
  | .ok swapFree =>
  match memAvailableSelected buf with
  | .error e => .error e
  | .ok memAvailable =>
      if memTotalKiB = 0 then .error .divByZero
      else .ok {
        m := {
          MemTotalKiB := memTotalKiB
          MemTotalMiB := Int.tdiv memTotalKiB 1024
          MemAvailableMiB := Int.tdiv memAvailable 1024
          MemAvailablePercent := Int.tdiv (memAvailable * 100) memTotalKiB
          SwapTotalKiB := swapTotalKiB
          SwapTotalMiB := Int.tdiv swapTotalKiB 1024
          SwapFreeMiB := Int.tdiv swapFree 1024
          SwapFreePercent :=
            if swapTotalKiB > 0 then Int.tdiv (swapFree * 100) swapTotalKiB else 0 }
        warnedAfter := if get_entry lblMemAvailable buf = -1 then true else warned
        emitted := if get_entry lblMemAvailable buf = -1 then !warned else false }

/-- `meminfo_t parse_meminfo()`: `fatal(102)` when `/proc/meminfo` cannot be
opened (`openOk = false`) or `fread` returns 0 bytes; otherwise the body runs
on at most `sizeof(buf) - 1 = 8191` bytes of the content. -/
def parse_meminfo (openOk : Bool) (content : List Char) (warned : Bool) :
    Except CErr ParseResult :=
  if !openOk then .error (.fatalExit 102)
  else if content = [] then .error (.fatalExit 102)
  else parse_meminfo_core warned (content.take 8191)

/-- A whole-process run: fold `parse_meminfo` over a list of (openOk, content)
call inputs starting from flag `warned`, counting emitted warnings; a fatal
call terminates the process, so later calls never happen. -/
def run_parse_calls : Bool → List (Bool × List Char) → Nat
  | _, [] => 0
  | warned, (ok, c) :: rest =>
      match parse_meminfo ok c warned with
      | .error _ => 0
      | .ok r => (if r.emitted then 1 else 0) + run_parse_calls r.warnedAfter rest

/-- `fscanf` directive `%d` with assignment suppressed: skip whitespace,
optional sign, at least one digit; returns the remaining input. -/
def scanInt (s : List Char) : Option (List Char) :=
  let s1 := s.dropWhile isSpace
  let p := splitSign s1
  match p.2 with
  | [] => none
  | c :: r => if c.isDigit then some ((c :: r).dropWhile Char.isDigit) else none

/-- `fscanf` directive `%s` with assignment suppressed: skip whitespace, read
a non-empty run of non-whitespace characters; returns the remaining input. -/
def scanStr (s : List Char) : Option (List Char) :=
  match s.dropWhile isSpace with
  | [] => none
  | c :: r => some ((c :: r).dropWhile (fun x => !isSpace x))

/-- `fscanf(f, "%*d %*s %c", &state)`: the character assigned to `state`,
or `none` when matching fails (`res < 1`). -/
def scanStat (s : List Char) : Option Char :=
  match scanInt s with
  | none => none
  | some s1 =>
  match scanStr s1 with
  | none => none
  | some s2 =>
  match s2.dropWhile isSpace with
  | [] => none
  | c :: _ => some c

/-- `bool is_alive(int pid)`: `none` models `fopen` failing (process gone);
`some content` is what `/proc/<pid>/stat` reads as. -/
def is_alive (statFile : Option (List Char)) : Bool :=
  match statFile with
  | none => false
  | some content =>
      match scanStat content with
      | none => false
      | some state => if state = 'Z' then false else true

lemma tdiv_ofNat (a t : Nat) : Int.tdiv (a : Int) (t : Int) = ((a / t : Nat) : Int) := rfl

lemma tdiv_eq_fdiv_of_nonneg (a b : Int) (ha : 0 ≤ a) (hb : 0 ≤ b) :
    Int.tdiv a b = Int.fdiv a b := by
  obtain ⟨m, rfl⟩ : ∃ m : Nat, a = (m : Int) := ⟨a.toNat, (Int.toNat_of_nonneg ha).symm⟩
  obtain ⟨n, rfl⟩ : ∃ n : Nat, b = (n : Int) := ⟨b.toNat, (Int.toNat_of_nonneg hb).symm⟩
  rw [tdiv_ofNat, Int.fdiv_eq_ediv _ (Int.natCast_nonneg n)]
  exact_mod_cast rfl

lemma tdiv_pct_bounds (a t : Nat) (h : a ≤ t) (ht : 0 < t) :
    0 ≤ Int.tdiv ((a : Int) * 100) (t : Int) ∧ Int.tdiv ((a : Int) * 100) (t : Int) ≤ 100 := by
  have hcast : ((a : Int)) * 100 = ((a * 100 : Nat) : Int) := by push_cast; ring
  rw [hcast, tdiv_ofNat]
  refine ⟨Int.natCast_nonneg _, ?_⟩
  have hb : a * 100 / t ≤ 100 := by
    calc a * 100 / t ≤ t * 100 / t := Nat.div_le_div_right (Nat.mul_le_mul_right _ h)
    _ = 100 := Nat.mul_div_cancel_left _ ht
  exact_mod_cast hb

lemma get_entry_fatal_ok {name buf : List Char} {v : Int}
    (h : get_entry_fatal name buf = .ok v) : get_entry name buf = v ∧ v ≠ -1 := by
  simp only [get_entry_fatal] at h
  split at h
  · exact Except.noConfusion h
  · rename_i hne
    simp only [Except.ok.injEq] at h
    exact ⟨h, h ▸ hne⟩

lemma get_entry_fatal_eq_ok {name buf : List Char} (h : get_entry name buf ≠ -1) :
    get_entry_fatal name buf = .ok (get_entry name buf) := by
  simp [get_entry_fatal, h]

lemma get_entry_fatal_error {name buf : List Char} {e : CErr}
    (h : get_entry_fatal name buf = .error e) :
    get_entry name buf = -1 ∧ e = .fatalExit 104 := by
  simp only [get_entry_fatal] at h
  split at h
  · rename_i hc
    simp only [Except.error.injEq] at h
    exact ⟨hc, h.symm⟩
  · exact Except.noConfusion h

lemma available_guesstimate_ok {buf : List Char}
    (hC : get_entry lblCached buf ≠ -1) (hF : get_entry lblMemFree buf ≠ -1)
    (hB : get_entry lblBuffers buf ≠ -1) (hS : get_entry lblShmem buf ≠ -1) :
    available_guesstimate buf =
      .ok (get_entry lblMemFree buf + get_entry lblCached buf +
           get_entry lblBuffers buf - get_entry lblShmem buf) := by
  simp [available_guesstimate, get_entry_fatal_eq_ok hC, get_entry_fatal_eq_ok hF,
        get_entry_fatal_eq_ok hB, get_entry_fatal_eq_ok hS]

lemma available_guesstimate_error_of_missing {buf : List Char}
    (h : get_entry lblCached buf = -1 ∨ get_entry lblMemFree buf = -1 ∨
         get_entry lblBuffers buf = -1 ∨ get_entry lblShmem buf = -1) :
    available_guesstimate buf = .error (.fatalExit 104) := by
  by_cases hC : get_entry lblCached buf = -1
  · simp [available_guesstimate, get_entry_fatal, hC]
  · by_cases hF : get_entry lblMemFree buf = -1
    · simp [available_guesstimate, get_entry_fatal, hC, hF]
    · by_cases hB : get_entry lblBuffers buf = -1
      · simp [available_guesstimate, get_entry_fatal, hC, hF, hB]
      · by_cases hS : get_entry lblShmem buf = -1
        · simp [available_guesstimate, get_entry_fatal, hC, hF, hB, hS]
        · rcases h with h | h | h | h <;> contradiction

lemma available_guesstimate_error {buf : List Char} {e : CErr}
    (h : available_guesstimate buf = .error e) : e = .fatalExit 104 := by
  unfold available_guesstimate at h
  split at h
  · rename_i e' he
    cases h
    exact (get_entry_fatal_error he).2
  · split at h
    · rename_i e' he
      cases h
      exact (get_entry_fatal_error he).2
    · split at h
      · rename_i e' he
        cases h
        exact (get_entry_fatal_error he).2
      · split at h
        · rename_i e' he
          cases h
          exact (get_entry_fatal_error he).2
        · exact Except.noConfusion h

lemma parse_core_ok_spec {warned : Bool} {buf : List Char} {r : ParseResult}
    (hp : parse_meminfo_core warned buf = .ok r) :
    ∃ A, memAvailableSelected buf = .ok A ∧
      r.m.MemTotalKiB = get_entry lblMemTotal buf ∧
      r.m.MemTotalKiB ≠ 0 ∧
      r.m.MemTotalKiB ≠ -1 ∧
      r.m.SwapTotalKiB = get_entry lblSwapTotal buf ∧
      r.m.MemAvailablePercent = Int.tdiv (A * 100) r.m.MemTotalKiB ∧
      r.m.SwapFreePercent = (if r.m.SwapTotalKiB > 0
        then Int.tdiv (get_entry lblSwapFree buf * 100) r.m.SwapTotalKiB else 0) ∧
      r.m.MemTotalMiB = Int.tdiv r.m.MemTotalKiB 1024 ∧
      r.m.MemAvailableMiB = Int.tdiv A 1024 ∧
      r.m.SwapTotalMiB = Int.tdiv r.m.SwapTotalKiB 1024 ∧
      r.m.SwapFreeMiB = Int.tdiv (get_entry lblSwapFree buf) 1024 ∧
      r.warnedAfter = (if get_entry lblMemAvailable buf = -1 then true else warned) ∧
      r.emitted = (if get_entry lblMemAvailable buf = -1 then !warned else false) := by
  unfold parse_meminfo_core at hp
  split at hp
  · exact Except.noConfusion hp
  rename_i T hT
  split at hp
  · exact Except.noConfusion hp
  rename_i S hS
  split at hp
  · exact Except.noConfusion hp
  rename_i F hF
  split at hp
  · exact Except.noConfusion hp
  rename_i A hA
  split at hp
  · exact Except.noConfusion hp
  rename_i hTz
  simp only [Except.ok.injEq] at hp
  subst hp
  obtain ⟨hT1, hT2⟩ := get_entry_fatal_ok hT
  obtain ⟨hS1, _⟩ := get_entry_fatal_ok hS
  obtain ⟨hF1, _⟩ := get_entry_fatal_ok hF
  exact ⟨A, hA, hT1.symm, hTz, hT2, hS1.symm, rfl, by rw [hF1], rfl, rfl, rfl,
         by rw [hF1], rfl, rfl⟩

lemma dropWhile_append_all {p : Char → Bool} (l1 l2 : List Char)
    (h : ∀ c ∈ l1, p c = true) : (l1 ++ l2).dropWhile p = l2.dropWhile p := by
  induction l1 with
  | nil => rfl
  | cons a l ih =>
      have ha : p a = true := h a (List.mem_cons_self a l)
      simp only [List.cons_append, List.dropWhile_cons, ha, if_true]
      exact ih (fun c hc => h c (List.mem_cons_of_mem a hc))

lemma dropWhile_cons_neg {p : Char → Bool} {a : Char} (l : List Char)
    (h : p a = false) : (a :: l).dropWhile p = a :: l := by
  simp [List.dropWhile_cons, h]

lemma isSpace_eq_false_of_isDigit {c : Char} (h : c.isDigit = true) :
    isSpace c = false := by
  cases hs : isSpace c
  · rfl
  · exfalso
    simp only [isSpace, Bool.or_eq_true, decide_eq_true_eq] at hs
    rcases hs with ((((h1 | h1) | h1) | h1) | h1) | h1 <;>
      (subst h1; exact absurd h (by decide))

lemma digit_ne_minus {c : Char} (h : c.isDigit = true) : ¬(c = '-') := by
  intro he
  subst he
  exact absurd h (by decide)

lemma digit_ne_plus {c : Char} (h : c.isDigit = true) : ¬(c = '+') := by
  intro he
  subst he
  exact absurd h (by decide)

lemma scanInt_pid (pid tail : List Char) (c0 : Char) (hne : pid ≠ [])
    (hd : ∀ c ∈ pid, c.isDigit = true) (hc0 : c0.isDigit = false) :
    scanInt (pid ++ c0 :: tail) = some (c0 :: tail) := by
  obtain ⟨d, ds, rfl⟩ := List.exists_cons_of_ne_nil hne
  have hd0 : d.isDigit = true := hd d (List.mem_cons_self d ds)
  have hdrop : (d :: (ds ++ c0 :: tail)).dropWhile Char.isDigit = c0 :: tail := by
    have h1 := dropWhile_append_all (p := Char.isDigit) (d :: ds) (c0 :: tail) hd
    simpa [dropWhile_cons_neg _ hc0] using h1
  simp only [scanInt, List.cons_append]
  rw [dropWhile_cons_neg _ (isSpace_eq_false_of_isDigit hd0)]
  simp only [splitSign, if_neg (digit_ne_minus hd0), if_neg (digit_ne_plus hd0)]
  simp [hd0, hdrop]

lemma scanStr_space (c : Char) (x : List Char) (h : isSpace c = true) :
    scanStr (c :: x) = scanStr x := by
  simp [scanStr, List.dropWhile_cons, h]

lemma scanStr_token (tok tail : List Char) (c0 : Char) (hne : tok ≠ [])
    (ht : ∀ c ∈ tok, isSpace c = false) (hc0 : isSpace c0 = true) :
    scanStr (tok ++ c0 :: tail) = some (c0 :: tail) := by
  obtain ⟨a, as, rfl⟩ := List.exists_cons_of_ne_nil hne
  have ha : isSpace a = false := ht a (List.mem_cons_self a as)
  have hdrop : (a :: (as ++ c0 :: tail)).dropWhile (fun x => !isSpace x) = c0 :: tail := by
    have h1 := dropWhile_append_all (p := fun x => !isSpace x) (a :: as) (c0 :: tail)
      (fun c hc => by simp [ht c hc])
    rw [List.cons_append] at h1
    rw [h1]
    simp [List.dropWhile_cons, hc0]
  simp only [scanStr, List.cons_append]
  rw [dropWhile_cons_neg _ ha]
  simp [hdrop]

lemma scanStat_stat_line (pid name : List Char) (state : Char) (rest : List Char)
    (hpid : pid ≠ []) (hd : ∀ c ∈ pid, c.isDigit = true)
    (hname : ∀ c ∈ name, isSpace c = false) (hst : isSpace state = false) :
    scanStat (pid ++ ' ' :: '(' :: (name ++ ')' :: ' ' :: state :: rest)) = some state := by
  have h1 : scanInt (pid ++ ' ' :: '(' :: (name ++ ')' :: ' ' :: state :: rest)) =
      some (' ' :: '(' :: (name ++ ')' :: ' ' :: state :: rest)) :=
    scanInt_pid pid _ ' ' hpid hd (by decide)
  have hassoc : '(' :: (name ++ ')' :: ' ' :: state :: rest) =
      ('(' :: name ++ [')']) ++ (' ' :: state :: rest) := by
    simp [List.cons_append, List.append_assoc]
  have hsp : isSpace ' ' = true := by decide
  have h2 : scanStr (' ' :: '(' :: (name ++ ')' :: ' ' :: state :: rest)) =
      some (' ' :: state :: rest) := by
    rw [scanStr_space ' ' _ hsp, hassoc]
    refine scanStr_token ('(' :: name ++ [')']) _ ' ' (by simp) ?_ hsp
    intro c hc
    have hc' : c = '(' ∨ c ∈ name ∨ c = ')' := by simpa using hc
    rcases hc' with rfl | hc' | rfl
    · decide
    · exact hname c hc'
    · decide
  have h3 : (' ' :: state :: rest).dropWhile isSpace = state :: rest := by
    rw [List.dropWhile_cons]
    simp [hsp, List.dropWhile_cons, hst]
  simp only [scanStat, h1, h2, h3]

lemma memAvailableSelected_error {buf : List Char} {e : CErr}
    (h : memAvailableSelected buf = .error e) : e = .fatalExit 104 := by
  unfold memAvailableSelected at h
  split at h
  · exact available_guesstimate_error h
  · exact Except.noConfusion h

/-- A meminfo blob with no `MemAvailable` field but all four fallback fields. -/
def demoFallbackBlob : List Char :=
  "MemFree: 100\nCached: 50\nBuffers: 20\nShmem: 10\n".toList

/-- A meminfo blob lacking `MemTotal`. -/
def blobNoMemTotal : List Char := "SwapTotal: 1\nSwapFree: 1\n".toList

/-- A meminfo blob whose `MemTotal` value is 0. -/
def blobMemTotalZero : List Char :=
  "MemTotal: 0\nSwapTotal: 100\nSwapFree: 50\nMemAvailable: 25\n".toList

/-- A meminfo blob whose textual `MemAvailable` value is exactly -1, with the
four fallback fields present. -/
def blobMemAvailNeg1 : List Char :=
  "MemTotal: 400\nSwapTotal: 0\nSwapFree: 0\nMemAvailable: -1\nMemFree: 100\nCached: 50\nBuffers: 20\nShmem: 10\n".toList

/-- A meminfo blob whose textual `MemTotal` value is exactly -1. -/
def blobMemTotalNeg1 : List Char :=
  "MemTotal: -1\nSwapTotal: 10\nSwapFree: 5\nMemAvailable: 20\n".toList

/-- After the label, the following text has no parseable integer: past the
whitespace and an optional sign there is no digit. -/
def noParseableInt (s : List Char) : Bool :=
  match (splitSign (s.dropWhile isSpace)).2 with
  | [] => true
  | c :: _ => !c.isDigit

lemma strtol10_no_conv {s : List Char} (h : noParseableInt s = true) :
    strtol10 s = (0, false) := by
  cases hsc : (splitSign (s.dropWhile isSpace)).2 with
  | nil => simp [strtol10, hsc]
  | cons c r =>
      simp only [noParseableInt, hsc, Bool.not_eq_true'] at h
      simp [strtol10, hsc, h]

/-- C2: for every blob containing the four fallback fields,
`available_guesstimate` returns `MemFree + Cached + Buffers - Shmem`; any
of the four being absent is fatal (exit code 104); on the spec's example
blob (MemFree=100, Cached=50, Buffers=20, Shmem=10, no MemAvailable) the
selected availability is 160. -/
theorem C2_fallback_estimator :
    (∀ buf : List Char,
      get_entry lblCached buf ≠ -1 → get_entry lblMemFree buf ≠ -1 →
      get_entry lblBuffers buf ≠ -1 → get_entry lblShmem buf ≠ -1 →
      available_guesstimate buf =
        .ok (get_entry lblMemFree buf + get_entry lblCached buf +
             get_entry lblBuffers buf - get_entry lblShmem buf)) ∧
    (∀ buf : List Char,
      get_entry lblCached buf = -1 ∨ get_entry lblMemFree buf = -1 ∨
      get_entry lblBuffers buf = -1 ∨ get_entry lblShmem buf = -1 →
      available_guesstimate buf = .error (.fatalExit 104)) ∧
    (strstrSuffix lblMemAvailable demoFallbackBlob = none ∧
     memAvailableSelected demoFallbackBlob = .ok 160) :=
  ⟨fun _ hC hF hB hS => available_guesstimate_ok hC hF hB hS,
   fun _ h => available_guesstimate_error_of_missing h,
   by decide, by decide⟩

/-- C2 witness: the general formula applied to the spec's example blob. -/
theorem C2_fallback_estimator_witness :
    available_guesstimate demoFallbackBlob =
      .ok (get_entry lblMemFree demoFallbackBlob + get_entry lblCached demoFallbackBlob +
           get_entry lblBuffers demoFallbackBlob - get_entry lblShmem demoFallbackBlob) :=
  C2_fallback_estimator.1 demoFallbackBlob (by decide) (by decide) (by decide) (by decide)

/-- C3 counterexample: with the label present but no parseable integer after
it, `get_entry` returns 0 (strtol's no-conversion result), not the -1
"not found" sentinel the claim requires. -/
theorem C3_counterexample :
    get_entry lblMemTotal "MemTotal: x".toList = 0 ∧ (0 : Int) ≠ -1 :=
  ⟨by decide, by decide⟩

/-- C3 amended: `get_entry` signals -1 when the label is absent, or when
`strtol` overflows the `long` range (`errno = ERANGE`); when the label is
present but no parseable integer follows, it returns 0 (strtol's
no-conversion value); otherwise it returns the integer parsed right after
the first occurrence of the label. -/
theorem C3_get_entry_failure_modes :
    (∀ name buf : List Char, strstrSuffix name buf = none → get_entry name buf = -1) ∧
    (∀ name buf hit : List Char, strstrSuffix name buf = some hit →
      noParseableInt (hit.drop name.length) = true → get_entry name buf = 0) ∧
    (∀ name buf hit : List Char, strstrSuffix name buf = some hit →
      (strtol10 (hit.drop name.length)).2 = true → get_entry name buf = -1) ∧
    (∀ name buf hit : List Char, strstrSuffix name buf = some hit →
      (strtol10 (hit.drop name.length)).2 = false →
      get_entry name buf = (strtol10 (hit.drop name.length)).1) := by
  refine ⟨?_, ?_, ?_, ?_⟩
  · intro name buf h
    simp [get_entry, h]
  · intro name buf hit h hnp
    simp [get_entry, h, strtol10_no_conv hnp]
  · intro name buf hit h hv
    simp [get_entry, h, hv]
  · intro name buf hit h hv
    simp [get_entry, h, hv]

/-- C3 witness: the no-conversion case on a concrete blob. -/
theorem C3_witness : get_entry "A:".toList "A: x".toList = 0 :=
  C3_get_entry_failure_modes.2.1 "A:".toList "A: x".toList "A: x".toList
    (by decide) (by decide)

/-- C5: `parse_meminfo` never returns an error value; it terminates the
process with exit code 102 when the source cannot be opened or reads as zero
bytes, and with the distinct code 104 when a mandatory field such as
`MemTotal` is absent. -/
theorem C5_fatal_exit_codes :
    (∀ (content : List Char) (warned : Bool),
      parse_meminfo false content warned = .error (.fatalExit 102)) ∧
    (∀ warned : Bool, parse_meminfo true [] warned = .error (.fatalExit 102)) ∧
    (∀ (content : List Char) (warned : Bool), content ≠ [] →
      strstrSuffix lblMemTotal (content.take 8191) = none →
      parse_meminfo true content warned = .error (.fatalExit 104)) ∧
    ((102 : Nat) ≠ 104) := by
  refine ⟨?_, ?_, ?_, by decide⟩
  · intro c w
    simp [parse_meminfo]
  · intro w
    simp [parse_meminfo]
  · intro c w hne hmiss
    have hget : get_entry lblMemTotal (c.take 8191) = -1 := by
      simp [get_entry, hmiss]
    simp [parse_meminfo, hne, parse_meminfo_core, get_entry_fatal, hget]

/-- C5 witness: a nonempty blob lacking `MemTotal` exits with code 104. -/
theorem C5_fatal_exit_codes_witness :
    parse_meminfo true blobNoMemTotal false = .error (.fatalExit 104) :=
  C5_fatal_exit_codes.2.2.1 blobNoMemTotal false (by decide) (by decide)

/-- C6: `is_alive` is false when the stat file cannot be opened, false when
the read fails after a successful open, false for state 'Z', and true for any
other successfully read state character. -/
theorem C6_is_alive_cases :
    (is_alive none = false) ∧
    (∀ content : List Char, scanStat content = none → is_alive (some content) = false) ∧
    (∀ content : List Char, scanStat content = some 'Z' → is_alive (some content) = false) ∧
    (∀ (content : List Char) (st : Char), scanStat content = some st → st ≠ 'Z' →
      is_alive (some content) = true) := by
  refine ⟨rfl, ?_, ?_, ?_⟩
  · intro c h
    simp [is_alive, h]
  · intro c h
    simp [is_alive, h]
  · intro c st h hne
    simp [is_alive, h, hne]

/-- C6 witness: a normal running-process stat line is alive. -/
theorem C6_is_alive_cases_witness :
    is_alive (some "10751 (cat) R 2663".toList) = true :=
  C6_is_alive_cases.2.2.2 "10751 (cat) R 2663".toList 'R' (by decide) (by decide)

/-- C7 counterexample: for a name with embedded whitespace, the scanner reads
the state character from inside the name field: on "1 (a b) Z 0" it extracts
'b' instead of the true state 'Z', so a zombie is reported alive. -/
theorem C7_counterexample :
    scanStat "1 (a b) Z 0".toList = some 'b' ∧
    ('b' : Char) ≠ 'Z' ∧
    is_alive (some "1 (a b) Z 0".toList) = true :=
  ⟨by decide, by decide, by decide⟩

/-- C7 amended: for stat contents "pid (name) state ..." where the name
contains no whitespace (embedded parentheses are fine), the scanner extracts
the state character correctly and the liveness verdict follows it; names with
embedded whitespace are not tolerated (see the counterexample). -/
theorem C7_state_extraction_no_space_names :
    ∀ (pid name : List Char) (state : Char) (rest : List Char),
      pid ≠ [] → (∀ c ∈ pid, c.isDigit = true) →
      (∀ c ∈ name, isSpace c = false) → isSpace state = false →
      scanStat (pid ++ ' ' :: '(' :: (name ++ ')' :: ' ' :: state :: rest)) = some state ∧
      (state = 'Z' →
        is_alive (some (pid ++ ' ' :: '(' :: (name ++ ')' :: ' ' :: state :: rest))) = false) ∧
      (state ≠ 'Z' →
        is_alive (some (pid ++ ' ' :: '(' :: (name ++ ')' :: ' ' :: state :: rest))) = true) := by
  intro pid name state rest hpid hd hname hst
  have hs := scanStat_stat_line pid name state rest hpid hd hname hst
  refine ⟨hs, fun hz => ?_, fun hz => by simp [is_alive, hs, hz]⟩
  subst hz
  simp [is_alive, hs]

/-- C7 witness: a name with embedded parentheses but no whitespace parses to
the right state character. -/
theorem C7_state_extraction_witness :
    scanStat ("123".toList ++ ' ' :: '(' ::
      ("a(b)c".toList ++ ')' :: ' ' :: 'R' :: " 1".toList)) = some 'R' :=
  (C7_state_extraction_no_space_names "123".toList "a(b)c".toList 'R' " 1".toList
    (by decide) (by decide) (by decide) (by decide)).1

/-- C9: the mem percentage divides by the parsed `MemTotal` with no zero
guard: a blob with "MemTotal: 0" reaches the division with divisor zero
(modelled as the undefined-behaviour error); the only way that division has a
zero divisor is `MemTotal = 0` (the swap division is guarded by
`SwapTotal > 0`), and `MemTotal > 0` rules it out. -/
theorem C9_memtotal_zero_division :
    (parse_meminfo_core false blobMemTotalZero = .error .divByZero) ∧
    (∀ (buf : List Char) (w : Bool), parse_meminfo_core w buf = .error .divByZero →
      get_entry lblMemTotal buf = 0) ∧
    (∀ (buf : List Char) (w : Bool), 0 < get_entry lblMemTotal buf →
      parse_meminfo_core w buf ≠ .error .divByZero) := by
  have key : ∀ (buf : List Char) (w : Bool),
      parse_meminfo_core w buf = .error .divByZero → get_entry lblMemTotal buf = 0 := by
    intro buf w h
    unfold parse_meminfo_core at h
    split at h
    · rename_i e he
      injection h with h'
      subst h'
      exact CErr.noConfusion (get_entry_fatal_error he).2
    rename_i T hT
    split at h
    · rename_i e he
      injection h with h'
      subst h'
      exact CErr.noConfusion (get_entry_fatal_error he).2
    rename_i S hS
    split at h
    · rename_i e he
      injection h with h'
      subst h'
      exact CErr.noConfusion (get_entry_fatal_error he).2
    rename_i F hF
    split at h
    · rename_i e he
      injection h with h'
      subst h'
      exact CErr.noConfusion (memAvailableSelected_error he)
    rename_i A hA
    split at h
    · rename_i hTz
      rw [(get_entry_fatal_ok hT).1]
      exact hTz
    · exact Except.noConfusion h
  refine ⟨by decide, key, ?_⟩
  intro buf w hpos h
  have h0 := key buf w h
  omega

/-- C9 witness: the general zero-divisor characterization applied to the
concrete zero-MemTotal blob. -/
theorem C9_memtotal_zero_division_witness :
    get_entry lblMemTotal blobMemTotalZero = 0 :=
  C9_memtotal_zero_division.2.1 blobMemTotalZero false (by decide)

/-- C10: a parsed textual value of exactly -1 is indistinguishable from the
"not found" sentinel: `get_entry` returns -1 for it; an optional
`MemAvailable: -1` silently selects the fallback estimator, and a mandatory
`MemTotal: -1` is fatal (exit 104) even though the field is present. -/
theorem C10_sentinel_collision :
    (∀ (name buf hit : List Char), strstrSuffix name buf = some hit →
      strtol10 (hit.drop name.length) = (-1, false) → get_entry name buf = -1) ∧
    (get_entry lblMemAvailable blobMemAvailNeg1 = -1) ∧
    (memAvailableSelected blobMemAvailNeg1 = .ok 160) ∧
    (strstrSuffix lblMemTotal blobMemTotalNeg1 ≠ none ∧
     parse_meminfo_core false blobMemTotalNeg1 = .error (.fatalExit 104)) := by
  refine ⟨?_, by decide, by decide, by decide, by decide⟩
  intro name buf hit h hv
  simp [get_entry, h, hv]

/-- C10 witness: the collision lemma applied to a concrete field with textual
value -1. -/
theorem C10_sentinel_collision_witness :
    get_entry "A:".toList "A: -1".toList = -1 :=
  C10_sentinel_collision.1 "A:".toList "A: -1".toList "A: -1".toList
    (by decide) (by decide)

/-- A meminfo blob accepted by the parser whose `MemTotal` value is negative
(the parser rejects only the value -1). -/
def blobNegMemTotal : List Char :=
  "MemTotal: -3\nSwapTotal: 0\nSwapFree: 0\nMemAvailable: 100\n".toList

/-- A well-formed blob with positive swap but `SwapFree` 0. -/
def blobSwapZeroFree : List Char :=
  "MemTotal: 100\nMemAvailable: 50\nSwapTotal: 100\nSwapFree: 0\n".toList

/-- Its parsed snapshot. -/
def c4Result : ParseResult := ⟨⟨100, 0, 0, 50, 100, 0, 0, 0⟩, false, false⟩

/-- A well-formed blob with `MemAvailable` present, and its snapshot. -/
def demoOkBlob : List Char :=
  "MemTotal: 400\nSwapTotal: 200\nSwapFree: 50\nMemAvailable: 100\n".toList

def demoOkResult : ParseResult := ⟨⟨400, 0, 0, 25, 200, 0, 0, 25⟩, false, false⟩

/-- A well-formed blob with no `MemAvailable`, forcing the fallback path. -/
def blobFallback : List Char :=
  "MemTotal: 400\nSwapTotal: 0\nSwapFree: 0\nMemFree: 100\nCached: 50\nBuffers: 20\nShmem: 10\n".toList

/-- C1 counterexample: the percentage division truncates toward zero, not
floor: the accepted blob with `MemTotal: -3` and `MemAvailable: 100` yields
percent -3333 while the claim's floor formula gives -3334. -/
theorem C1_counterexample :
    parse_meminfo_core false blobNegMemTotal =
      .ok ⟨⟨-3, 0, 0, -3333, 0, 0, 0, 0⟩, false, false⟩ ∧
    Int.fdiv (100 * 100) (-3) = -3334 ∧
    ((-3333 : Int) ≠ -3334) :=
  ⟨by decide, by decide, by decide⟩

/-- C1 amended: percentages use C truncating division
(`mem_available_percent = trunc(avail*100 / mem_total)`, multiply before
divide), which coincides with the claimed floor whenever the parsed values
are nonnegative; `swap_free_percent` is 0 whenever `swap_total ≤ 0` and
otherwise `trunc(swap_free*100 / swap_total)`, again the floor for
nonnegative values. -/
theorem C1_percent_formulas :
    ∀ (buf : List Char) (warned : Bool) (r : ParseResult) (A : Int),
      parse_meminfo_core warned buf = .ok r →
      memAvailableSelected buf = .ok A →
      (r.m.MemAvailablePercent = Int.tdiv (A * 100) r.m.MemTotalKiB) ∧
      (0 ≤ A → 0 < r.m.MemTotalKiB →
        r.m.MemAvailablePercent = Int.fdiv (A * 100) r.m.MemTotalKiB) ∧
      (r.m.SwapTotalKiB ≤ 0 → r.m.SwapFreePercent = 0) ∧
      (0 < r.m.SwapTotalKiB →
        r.m.SwapFreePercent = Int.tdiv (get_entry lblSwapFree buf * 100) r.m.SwapTotalKiB) ∧
      (0 < r.m.SwapTotalKiB → 0 ≤ get_entry lblSwapFree buf →
        r.m.SwapFreePercent = Int.fdiv (get_entry lblSwapFree buf * 100) r.m.SwapTotalKiB) := by
  intro buf warned r A hp hA
  obtain ⟨A', hA', hTeq, hT0, hTne1, hSeq, hPct, hSw, _, _, _, _, _, _⟩ :=
    parse_core_ok_spec hp
  have hAA : A' = A := by
    have h := hA'.symm.trans hA
    injection h
  subst hAA
  refine ⟨hPct, ?_, ?_, ?_, ?_⟩
  · intro h0A hposT
    rw [hPct, tdiv_eq_fdiv_of_nonneg _ _ (mul_nonneg h0A (by norm_num)) (le_of_lt hposT)]
  · intro hle
    rw [hSw, if_neg (by omega)]
  · intro hpos
    rw [hSw, if_pos hpos]
  · intro hpos h0F
    rw [hSw, if_pos hpos,
        tdiv_eq_fdiv_of_nonneg _ _ (mul_nonneg h0F (by norm_num)) (le_of_lt hpos)]

/-- C1 witness: the floor form of the percentage on a concrete snapshot. -/
theorem C1_percent_formulas_witness :
    demoOkResult.m.MemAvailablePercent =
      Int.fdiv (100 * 100) demoOkResult.m.MemTotalKiB :=
  (C1_percent_formulas demoOkBlob false demoOkResult 100
    (by decide) (by decide)).2.1 (by decide) (by decide)

/-- C4 counterexample: `swap_free_percent = 0` does not imply
`swap_total_kib = 0`: a blob with SwapTotal 100 and SwapFree 0 parses to
swap percentage 0 with nonzero swap total, refuting the claimed "iff". -/
theorem C4_counterexample :
    parse_meminfo_core false blobSwapZeroFree = .ok c4Result ∧
    ¬(c4Result.m.SwapFreePercent = 0 ↔ c4Result.m.SwapTotalKiB = 0) :=
  ⟨by decide, by decide⟩

/-- C4 amended: when the selected available value is nonnegative and at most
`MemTotal`, the mem percentage is in [0,100]; `swap_total_kib = 0` implies
`swap_free_percent = 0` (the converse fails, see the counterexample). -/
theorem C4_snapshot_ranges :
    ∀ (buf : List Char) (warned : Bool) (r : ParseResult) (A : Int),
      parse_meminfo_core warned buf = .ok r →
      memAvailableSelected buf = .ok A →
      (0 ≤ A → A ≤ r.m.MemTotalKiB →
        0 ≤ r.m.MemAvailablePercent ∧ r.m.MemAvailablePercent ≤ 100) ∧
      (r.m.SwapTotalKiB = 0 → r.m.SwapFreePercent = 0) := by
  intro buf warned r A hp hA
  obtain ⟨A', hA', hTeq, hT0, hTne1, hSeq, hPct, hSw, _, _, _, _, _, _⟩ :=
    parse_core_ok_spec hp
  have hAA : A' = A := by
    have h := hA'.symm.trans hA
    injection h
  rw [hAA] at hPct
  constructor
  · intro h0A hAT
    have hTpos : 0 < r.m.MemTotalKiB := by omega
    obtain ⟨a, ha⟩ : ∃ a : Nat, A = (a : Int) :=
      ⟨A.toNat, (Int.toNat_of_nonneg h0A).symm⟩
    obtain ⟨t, ht⟩ : ∃ t : Nat, r.m.MemTotalKiB = (t : Int) :=
      ⟨_, (Int.toNat_of_nonneg (le_of_lt hTpos)).symm⟩
    have hat : a ≤ t := by
      rw [ha, ht] at hAT
      exact_mod_cast hAT
    have htpos : 0 < t := by
      rw [ht] at hTpos
      exact_mod_cast hTpos
    rw [hPct, ha, ht]
    exact tdiv_pct_bounds a t hat htpos
  · intro hz
    rw [hSw, if_neg (by omega)]

/-- C4 witness: the range bounds on a concrete snapshot. -/
theorem C4_snapshot_ranges_witness :
    0 ≤ demoOkResult.m.MemAvailablePercent ∧ demoOkResult.m.MemAvailablePercent ≤ 100 :=
  (C4_snapshot_ranges demoOkBlob false demoOkResult 100
    (by decide) (by decide)).1 (by decide) (by decide)

lemma parse_ok_core {ok : Bool} {c : List Char} {w : Bool} {r : ParseResult}
    (h : parse_meminfo ok c w = .ok r) :
    parse_meminfo_core w (c.take 8191) = .ok r := by
  unfold parse_meminfo at h
  split at h
  · exact Except.noConfusion h
  split at h
  · exact Except.noConfusion h
  exact h

lemma parse_warned_true {ok : Bool} {c : List Char} {r : ParseResult}
    (h : parse_meminfo ok c true = .ok r) :
    r.emitted = false ∧ r.warnedAfter = true := by
  obtain ⟨_, _, _, _, _, _, _, _, _, _, _, _, hWa, hEm⟩ :=
    parse_core_ok_spec (parse_ok_core h)
  constructor
  · rw [hEm]
    split <;> rfl
  · rw [hWa]
    split <;> rfl

lemma parse_warned_false {ok : Bool} {c : List Char} {r : ParseResult}
    (h : parse_meminfo ok c false = .ok r) :
    r.emitted = r.warnedAfter := by
  obtain ⟨_, _, _, _, _, _, _, _, _, _, _, _, hWa, hEm⟩ :=
    parse_core_ok_spec (parse_ok_core h)
  rw [hEm, hWa]
  split <;> rfl

lemma run_parse_calls_warned (l : List (Bool × List Char)) :
    run_parse_calls true l = 0 := by
  induction l with
  | nil => rfl
  | cons x rest ih =>
      obtain ⟨ok, c⟩ := x
      rcases hp : parse_meminfo ok c true with e | r
      · simp [run_parse_calls, hp]
      · have h := parse_warned_true hp
        simp [run_parse_calls, hp, h.1, h.2, ih]

/-- C8: across a whole process run the fallback warning is emitted at most
once; with the flag still clear, a call taking the fallback path emits the
warning and sets the flag, a call not taking it leaves the flag clear, and
with the flag set no call ever emits again. -/
theorem C8_warn_once :
    (∀ inputs : List (Bool × List Char), run_parse_calls false inputs ≤ 1) ∧
    (∀ (ok : Bool) (c : List Char) (r : ParseResult),
      parse_meminfo ok c false = .ok r → get_entry lblMemAvailable (c.take 8191) = -1 →
      r.emitted = true ∧ r.warnedAfter = true) ∧
    (∀ (ok : Bool) (c : List Char) (r : ParseResult),
      parse_meminfo ok c false = .ok r → get_entry lblMemAvailable (c.take 8191) ≠ -1 →
      r.emitted = false ∧ r.warnedAfter = false) ∧
    (∀ (ok : Bool) (c : List Char) (r : ParseResult),
      parse_meminfo ok c true = .ok r → r.emitted = false ∧ r.warnedAfter = true) := by
  refine ⟨?_, ?_, ?_, fun ok c r h => parse_warned_true h⟩
  · intro inputs
    induction inputs with
    | nil => simp [run_parse_calls]
    | cons x rest ih =>
        obtain ⟨ok, c⟩ := x
        rcases hp : parse_meminfo ok c false with e | r
        · simp [run_parse_calls, hp]
        · have hre := parse_warned_false hp
          cases hem : r.emitted with
          | false =>
              have hw : r.warnedAfter = false := by rw [← hre, hem]
              simpa [run_parse_calls, hp, hem, hw] using ih
          | true =>
              have hw : r.warnedAfter = true := by rw [← hre, hem]
              simp [run_parse_calls, hp, hem, hw, run_parse_calls_warned]
  · intro ok c r h hfb
    obtain ⟨_, _, _, _, _, _, _, _, _, _, _, _, hWa, hEm⟩ :=
      parse_core_ok_spec (parse_ok_core h)
    rw [hEm, hWa, if_pos hfb, if_pos hfb]
    exact ⟨rfl, rfl⟩
  · intro ok c r h hfb
    obtain ⟨_, _, _, _, _, _, _, _, _, _, _, _, hWa, hEm⟩ :=
      parse_core_ok_spec (parse_ok_core h)
    rw [hEm, hWa, if_neg hfb, if_neg hfb]
    exact ⟨rfl, rfl⟩

/-- C8 witness: a first fallback call (flag clear) emits and sets the flag. -/
theorem C8_warn_once_witness :
    (⟨⟨400, 0, 0, 40, 0, 0, 0, 0⟩, true, true⟩ : ParseResult).emitted = true ∧
    (⟨⟨400, 0, 0, 40, 0, 0, 0, 0⟩, true, true⟩ : ParseResult).warnedAfter = true :=
  C8_warn_once.2.1 true blobFallback ⟨⟨400, 0, 0, 40, 0, 0, 0, 0⟩, true, true⟩
    (by decide) (by decide)
